import Mathlib

/-!
Verification development for the VIPWatcher conversation orchestration engine.

The Python source under verification consists of `function_app.py` (the
`Assistant` orchestrator), `utils/azure_file_storage.py` (the memory store)
and `agents/context_memory_agent.py` (the memory-recall capability).  Each
definition below is a shallow embedding of one Python function; external
effects (the Azure file service, `json.loads`, the OpenAI completion call)
are modelled as explicit oracles/traces supplied as arguments.  Recursive
scanners take an explicit fuel argument (always instantiated with the input
length, which strictly bounds the number of steps) so that every definition
is structurally recursive and evaluates by kernel reduction.
-/

set_option maxRecDepth 16384

/-! ## Python string primitives -/

/-- Python whitespace characters (ASCII range), as recognized by `str.strip()`
and by the regex class \s.  (Unicode whitespace beyond ASCII is outside the
model.) -/
def isPyWS (c : Char) : Bool :=
  c == ' ' || c == '\t' || c == '\n' || c == '\r' || c == Char.ofNat 11 || c == Char.ofNat 12

/-- Python `str.strip()`: drop leading and trailing whitespace. -/
def pyStrip (s : String) : String :=
  String.mk (((s.data.dropWhile isPyWS).reverse.dropWhile isPyWS).reverse)

/-- Python `str.lower()` (ASCII). -/
def pyLower (s : String) : String :=
  String.mk (s.data.map Char.toLower)

/-- Python substring containment `needle in hay`. -/
def strContains (hay needle : String) : Bool :=
  hay.data.tails.any (fun t => needle.data.isPrefixOf t)

/-- Worker for `pySplit`: Python `str.split(sep)` for a non-empty separator
`s0 :: srest`, scanning left to right.  The fuel is instantiated with the
input length plus one, which strictly bounds the recursion depth, so the
fuel-exhausted branch is unreachable. -/
def pySplitGo (s0 : Char) (srest : List Char) : Nat → List Char → List Char → List (List Char)
  | 0, l, acc => [acc.reverse ++ l]
  | _ + 1, [], acc => [acc.reverse]
  | fuel + 1, c :: rest, acc =>
    if c = s0 ∧ srest.isPrefixOf rest then
      acc.reverse :: pySplitGo s0 srest fuel (rest.drop srest.length) []
    else
      pySplitGo s0 srest fuel rest (c :: acc)

/-- Python `s.split(sep)` for non-empty `sep` (Python raises on an empty
separator, which never occurs in the source). -/
def pySplit (s : String) (sep : String) : List String :=
  match sep.data with
  | [] => [s]
  | s0 :: srest => (pySplitGo s0 srest (s.data.length + 1) s.data []).map String.mk

/-! ## Identity-token recognition (`function_app.py`, `Assistant.extract_user_guid`,
`Assistant._check_first_message_for_guid`) -/

/-- A hex digit, case-insensitive: the regex class `[0-9a-f]` under
`re.IGNORECASE`. -/
def isHexCI (c : Char) : Bool :=
  c.isDigit || (decide ('a' ≤ c) && decide (c ≤ 'f')) || (decide ('A' ≤ c) && decide (c ≤ 'F'))

/-- The anchored UUID regex
`^[0-9a-f]{8}-[0-9a-f]{4}-[0-9a-f]{4}-[0-9a-f]{4}-[0-9a-f]{12}$` with
`re.IGNORECASE` (used at `function_app.py` lines 259, 311 and 666).  Since the
hex class excludes the hyphen, matching is equivalent to splitting on hyphens
into exactly five all-hex groups of lengths 8-4-4-4-12. -/
def is_guid_match (s : String) : Bool :=
  match pySplit s "-" with
  | [g1, g2, g3, g4, g5] =>
    g1.length == 8 && g2.length == 4 && g3.length == 4 && g4.length == 4 && g5.length == 12
      && (g1.data.all isHexCI) && (g2.data.all isHexCI) && (g3.data.all isHexCI)
      && (g4.data.all isHexCI) && (g5.data.all isHexCI)
  | _ => false

/-- Separator class of the labeled-GUID regex: `[:=\s]`. -/
def isSepCh (c : Char) : Bool :=
  c == ':' || c == '=' || isPyWS c

/-- Token class of the labeled-GUID regex capture group: `[0-9a-f-]` with
`re.IGNORECASE`. -/
def isTokCh (c : Char) : Bool :=
  isHexCI c || c == '-'

/-- The labeled-GUID regex `^guid[:=\s]+([0-9a-f-]{36})$` with `re.IGNORECASE`
(`function_app.py` line 317), returning the captured group.  The separator and
token classes are disjoint, so the greedy match is equivalent to: a
case-insensitive `guid` prefix, then the maximal run of separator characters
(which must be non-empty), then exactly 36 token characters ending the
string. -/
def labeled_guid_extract (s : String) : Option String :=
  let cs := s.data
  if (cs.take 4).map Char.toLower == ['g', 'u', 'i', 'd'] then
    let rest := cs.drop 4
    let seps := rest.takeWhile isSepCh
    let tok := rest.dropWhile isSepCh
    if seps ≠ [] ∧ tok.length = 36 ∧ tok.all isTokCh then some (String.mk tok) else none
  else none

/-- Embeds `Assistant.extract_user_guid` (`function_app.py` lines 303-322): strip the
text, return it whole if it is exactly a UUID, else the captured token of the
labeled form, else nothing.  (The `text is None` guard is handled at call
sites; the argument here is already a string.) -/
def extract_user_guid (text : String) : Option String :=
  let s := pyStrip text
  if is_guid_match s then some s else labeled_guid_extract s

/-- Modelled from the claim wording (spec §4.4 / §8.1), for comparison with
`extract_user_guid`: the trimmed text must be exactly a canonical UUID, or
exactly `guid:`/`guid=` (case-insensitive) wrapping a 36-character token of
that same UUID grammar. -/
def spec_is_identity_token (s : String) : Bool :=
  let t := pyStrip s
  is_guid_match t ||
    (((t.data.take 5).map Char.toLower == ['g', 'u', 'i', 'd', ':'] ||
      (t.data.take 5).map Char.toLower == ['g', 'u', 'i', 'd', '=']) &&
     is_guid_match (String.mk (t.data.drop 5)))

/-! ## Dual-channel response parsing (`Assistant.parse_response_with_voice`,
`function_app.py` lines 452-477) -/

/-- One left-to-right pass of `re.sub` removing `\*\*|`|#|>|---`: at each
position try the alternatives in order (`**`, backtick, `#`, `>`, `---`);
on a match consume it, otherwise keep the character and advance.  Fuel is
instantiated with the input length, which bounds the step count. -/
def stripMarkupGo : Nat → List Char → List Char
  | 0, l => l
  | _ + 1, [] => []
  | fuel + 1, c :: rest =>
    if c = '*' then
      match rest with
      | c2 :: rest2 =>
        if c2 = '*' then stripMarkupGo fuel rest2 else '*' :: stripMarkupGo fuel rest
      | [] => ['*']
    else if c = Char.ofNat 96 ∨ c = '#' ∨ c = '>' then stripMarkupGo fuel rest
    else if c = '-' then
      match rest with
      | c2 :: c3 :: rest3 =>
        if c2 = '-' ∧ c3 = '-' then stripMarkupGo fuel rest3 else '-' :: stripMarkupGo fuel rest
      | _ => '-' :: stripMarkupGo fuel rest
    else c :: stripMarkupGo fuel rest

def stripMarkup (l : List Char) : List Char := stripMarkupGo l.length l

/-- Embeds `re.sub` collapsing each maximal whitespace run to a single space; the
boolean records whether the previous character was part of a run already
replaced. -/
def collapseWSGo : Bool → List Char → List Char
  | _, [] => []
  | prevWS, c :: rest =>
    if isPyWS c then
      if prevWS then collapseWSGo true rest else ' ' :: collapseWSGo true rest
    else c :: collapseWSGo false rest

def collapseWS (l : List Char) : List Char := collapseWSGo false l

/-- Embeds `Assistant.parse_response_with_voice`: split on `|||VOICE|||` into the
rich and spoken channels; if the delimiter is absent, derive the spoken
channel from the first `.`-sentence with markup stripped and whitespace
collapsed. -/
def parse_response_with_voice (content : String) : String × String :=
  if content = "" then ("", "")
  else
    match pySplit content "|||VOICE|||" with
    | p0 :: p1 :: _ => (pyStrip p0, pyStrip p1)
    | _ =>
      let formatted := pyStrip content
      match pySplit formatted "." with
      | s0 :: _ =>
        let voice := pyStrip s0 ++ "."
        let voice := String.mk (stripMarkup voice.data)
        let voice := pyStrip (String.mk (collapseWS voice.data))
        (formatted, voice)
      | [] => (formatted, "I\x27ve completed your request.")

/-! ## JSON values and `safe_json_loads` (`utils/azure_file_storage.py` lines 8-19)

`json.loads` itself is an external library call; a `JsonText` packages a
Python string together with the outcome of `json.loads` on it (`none` means
the parse raises `JSONDecodeError`). -/

inductive Json where
  | null
  | bool (b : Bool)
  | num (n : Int)
  | str (s : String)
  | arr (elems : List Json)
  | obj (kvs : List (String × Json))

/-- A Python string together with its `json.loads` outcome. -/
structure JsonText where
  raw : String
  parsed : Option Json

/-- Embeds `safe_json_loads`: `None`/empty input yields an empty dict, a parse
failure yields an error dict carrying the raw text.  (The `isinstance(dict,
list)` passthrough branch applies only to already-parsed arguments, which do
not occur at the modelled call sites, where the input is `None` or `str`.) -/
def safe_json_loads : Option JsonText → Json
  | none => Json.obj []
  | some t =>
    if t.raw = "" then Json.obj []
    else
      match t.parsed with
      | some j => j
      | none => Json.obj [("error", Json.str ("Invalid JSON: " ++ t.raw))]

/-- Python `value is None` on a JSON value. -/
def Json.isNull : Json → Bool
  | Json.null => true
  | _ => false

/-- Python dict lookup `d.get(k)` over insertion-ordered unique-key items. -/
def dictGet (kvs : List (String × Json)) (k : String) : Option Json :=
  (kvs.find? (fun kv => kv.1 == k)).map (fun kv => kv.2)

/-- Python dict assignment `d[k] = v`: replace the first (for a dict: only)
occurrence in place, or append when absent. -/
def dictSet : List (String × Json) → String → Json → List (String × Json)
  | [], k, v => [(k, v)]
  | kv :: t, k, v => if kv.1 == k then (k, v) :: t else kv :: dictSet t k v

/-- Python truthiness of a JSON value (used for the error-flag check). -/
def jsonTruthy : Json → Bool
  | Json.null => false
  | Json.bool b => b
  | Json.num n => n != 0
  | Json.str s => s ≠ ""
  | Json.arr elems => !elems.isEmpty
  | Json.obj kvs => !kvs.isEmpty

/-- Python equality of a JSON value with a string literal (true only for that exact string). -/
def jsonEqStr : Option Json → String → Bool
  | some (Json.str s), lit => s == lit
  | _, _ => false

/-- Python `x == True` for a JSON value (`True == 1` in Python, so the
number one also compares equal). -/
def jsonEqTrue : Option Json → Bool
  | some (Json.bool b) => b
  | some (Json.num n) => n == 1
  | _ => false

/-! ## The memory store (`utils/azure_file_storage.py`, `AzureFileStorageManager`)

The Azure `FileService` is external; a `StorageEnv` records the outcome of
each primitive call the manager makes (`ok` = the call returns, `err e` =
the call raises an exception whose `str` is `e`).  The shared write is
retried recursively after a `ResourceNotFound` recovery, so its successive
outcomes form a list consumed per attempt. -/

inductive OpResult (α : Type) where
  | ok (a : α)
  | err (msg : String)
deriving DecidableEq, Repr

structure StorageEnv where
  /-- Embeds `get_file_to_text(share, current_memory_path, "user_memory.json")` -/
  getGuidFile : OpResult JsonText
  /-- Embeds `get_file_to_text(share, "shared_memories", "memory.json")` -/
  getSharedFile : OpResult JsonText
  /-- Embeds `create_share(share, fail_on_exist=False)` inside `_ensure_share_exists` -/
  createShare : OpResult Unit
  /-- Embeds `get_file_properties(share, "shared_memories", "memory.json")` -/
  getMemProps : OpResult Unit
  /-- Embeds `create_file_from_text` creating the shared `memory.json` -/
  createMemFile : OpResult Unit
  /-- Embeds `create_file_from_text(share, current_memory_path, "user_memory.json", ...)` -/
  putGuidFile : OpResult Unit
  /-- successive outcomes of `create_file_from_text` on the shared `memory.json`
  (one per `_write_shared_memory` attempt) -/
  putSharedFiles : List (OpResult Unit)

/-- The scope-selection fields of the manager (`current_guid`,
`current_memory_path`). -/
structure StorageState where
  current_guid : Option String
  current_memory_path : String
deriving DecidableEq, Repr

def shared_memory_path : String := "shared_memories"

/-- Embeds `self.current_guid and self.current_memory_path != self.shared_memory_path`
(Python truthiness: `None` and the empty string are falsy). -/
def guidScopeActive (st : StorageState) : Bool :=
  (match st.current_guid with
   | some g => g ≠ ""
   | none => false) &&
  st.current_memory_path ≠ shared_memory_path

/-- The state after falling back to the shared scope. -/
def sharedFallbackState : StorageState :=
  { current_guid := none, current_memory_path := shared_memory_path }

/-- Embeds `_ensure_share_exists` (lines 46-68): create the share, ensure the shared
directory (which swallows its own errors and cannot raise), then probe the
shared `memory.json`, creating it when the probe fails.  Any exception is
logged and re-raised. -/
def ensure_share_exists (env : StorageEnv) : OpResult Unit :=
  match env.createShare with
  | OpResult.err e => OpResult.err e
  | OpResult.ok _ =>
    match env.getMemProps with
    | OpResult.ok _ => OpResult.ok ()
    | OpResult.err _ => env.createMemFile

/-- Embeds `_read_shared_memory` (lines 134-146): on a read error, re-create the
share when the message mentions `ResourceNotFound` (a step that may itself
raise), then return an empty document. -/
def read_shared_memory (env : StorageEnv) : OpResult Json :=
  match env.getSharedFile with
  | OpResult.ok t => OpResult.ok (safe_json_loads (some t))
  | OpResult.err e =>
    if strContains e "ResourceNotFound" then
      match ensure_share_exists env with
      | OpResult.err e2 => OpResult.err e2
      | OpResult.ok _ => OpResult.ok (Json.obj [])
    else OpResult.ok (Json.obj [])

/-- Embeds `read_json` (lines 121-132): read the identity scope when one is active,
falling back to the shared scope (and resetting the scope fields) when that
raises; otherwise read the shared scope.  Returns the document outcome and
the manager state after the call. -/
def read_json (env : StorageEnv) (st : StorageState) : OpResult Json × StorageState :=
  if guidScopeActive st then
    match env.getGuidFile with
    | OpResult.ok t => (OpResult.ok (safe_json_loads (some t)), st)
    | OpResult.err _ => (read_shared_memory env, sharedFallbackState)
  else (read_shared_memory env, st)

/-- Outcome of a Python call that returns no value: it either returns
normally, raises, or (for the retried shared write) is not determined by the
finitely many simulated attempt outcomes supplied. -/
inductive CallOutcome where
  | returned
  | raised (e : String)
  | undetermined
deriving DecidableEq, Repr

/-- Embeds `_write_shared_memory` (lines 173-186): a write error is swallowed unless
it mentions `ResourceNotFound`, in which case the share is re-created (which
may raise) and the write retried recursively. -/
def write_shared_memory (env : StorageEnv) : List (OpResult Unit) → CallOutcome
  | [] => CallOutcome.undetermined
  | p :: rest =>
    match p with
    | OpResult.ok _ => CallOutcome.returned
    | OpResult.err e =>
      if strContains e "ResourceNotFound" then
        match ensure_share_exists env with
        | OpResult.err e2 => CallOutcome.raised e2
        | OpResult.ok _ => write_shared_memory env rest
      else CallOutcome.returned

/-- Embeds `write_json` (lines 160-171): write the identity scope when one is
active, falling back to the shared scope (and resetting the scope fields) on
any error; otherwise write the shared scope. -/
def write_json (env : StorageEnv) (st : StorageState) : CallOutcome × StorageState :=
  if guidScopeActive st then
    match env.putGuidFile with
    | OpResult.ok _ => (CallOutcome.returned, st)
    | OpResult.err _ => (write_shared_memory env env.putSharedFiles, sharedFallbackState)
  else (write_shared_memory env env.putSharedFiles, st)


/-! ## Python values and `ensure_string_content` (`function_app.py` lines 21-50)

Python values as they can appear in a request payload, as a mutual inductive
family (the dict/list payloads are given their own spines so that all
functions below are structurally recursive and evaluate by kernel
reduction). -/

mutual
inductive PyVal where
  | none
  | bool (b : Bool)
  | int (n : Int)
  | str (s : String)
  | list (elems : PyList)
  | dict (kvs : PyDict)

inductive PyList where
  | nil
  | cons (head : PyVal) (tail : PyList)

inductive PyDict where
  | nil
  | cons (key : String) (val : PyVal) (tail : PyDict)
end

mutual
/-- Python `repr`, used to render values nested inside containers.  (String
escaping inside `repr` is not modelled; no claim depends on it.) -/
def pyRepr : PyVal → String
  | PyVal.none => "None"
  | PyVal.bool b => if b then "True" else "False"
  | PyVal.int n => toString n
  | PyVal.str s => "\x27" ++ s ++ "\x27"
  | PyVal.list elems => "[" ++ String.intercalate ", " (pyReprList elems) ++ "]"
  | PyVal.dict kvs => "\x7b" ++ String.intercalate ", " (pyReprDict kvs) ++ "\x7d"

def pyReprList : PyList → List String
  | PyList.nil => []
  | PyList.cons v t => pyRepr v :: pyReprList t

def pyReprDict : PyDict → List String
  | PyDict.nil => []
  | PyDict.cons k v t => ("\x27" ++ k ++ "\x27: " ++ pyRepr v) :: pyReprDict t
end

/-- Python `str(v)`: identity on strings, `repr`-style otherwise. -/
def pyStr : PyVal → String
  | PyVal.str s => s
  | v => pyRepr v

/-- Python `k in d` for a dict. -/
def PyDict.has : PyDict → String → Bool
  | PyDict.nil, _ => false
  | PyDict.cons k _ t, key => k == key || PyDict.has t key

/-- Python `d.get(k)` (default `None`). -/
def PyDict.get : PyDict → String → PyVal
  | PyDict.nil, _ => PyVal.none
  | PyDict.cons k v t, key => if k == key then v else PyDict.get t key

/-- Python `d[k] = v`: replace in place (dict keys are unique), or append
when absent. -/
def PyDict.set : PyDict → String → PyVal → PyDict
  | PyDict.nil, key, v => PyDict.cons key v PyDict.nil
  | PyDict.cons k v0 t, key, v =>
    if k == key then PyDict.cons key v t else PyDict.cons k v0 (PyDict.set t key v)

/-- Embeds `ensure_string_content`: coerce any message value to a dict with a role
and string content.  `None` content (and an absent content key) becomes the
empty string; any other non-string content is passed through `str`. -/
def ensure_string_content (message : PyVal) : PyDict :=
  match message with
  | PyVal.none =>
    PyDict.cons "role" (PyVal.str "user") (PyDict.cons "content" (PyVal.str "") PyDict.nil)
  | PyVal.dict kvs =>
    let kvs := if kvs.has "role" then kvs else kvs.set "role" (PyVal.str "user")
    if kvs.has "content" then
      let c := kvs.get "content"
      kvs.set "content"
        (PyVal.str (match c with
          | PyVal.none => ""
          | c => pyStr c))
    else kvs.set "content" (PyVal.str "")
  | m =>
    PyDict.cons "role" (PyVal.str "user")
      (PyDict.cons "content" (PyVal.str (pyStr m)) PyDict.nil)

/-! ## History handling (`Assistant._check_first_message_for_guid` lines
248-262, `Assistant.prepare_messages` lines 347-434, and the history
trimming plus message assembly in `Assistant.get_response` at lines 481-486
and 515-516) -/

/-- Embeds `_check_first_message_for_guid`: the bare-GUID check on the first history
entry.  A non-dict first entry makes `first_message.get` raise
`AttributeError`, which propagates to the outermost handler of `get_response`;
that is modelled as the `Except.error` case. -/
def check_first_message_for_guid (h : List PyVal) : Except String (Option String) :=
  match h with
  | [] => Except.ok Option.none
  | first :: _ =>
    match first with
    | PyVal.dict kvs =>
      Except.ok
        (if (match kvs.get "role" with
             | PyVal.str r => r == "user"
             | _ => false) then
           match kvs.get "content" with
           | PyVal.none => Option.none
           | c =>
             let content := pyStrip (pyStr c)
             if is_guid_match content then some content else Option.none
         else Option.none)
    | _ => Except.error "AttributeError"

/-- The history-trimming step of `get_response` (lines 482-486):
`conversation_history[-20:]` applied only when the history exceeds 20
entries. -/
def trimmed_history (h : List PyVal) : List PyVal :=
  if h.length > 20 then h.drop (h.length - 20) else h

/-- Embeds `prepare_messages` applied to an already-trimmed history: the system
message (whose content string is supplied by the caller, since it embeds
the wall-clock date and environment configuration), then the history with a
bare-GUID first entry skipped, every entry passed through
`ensure_string_content`. -/
def prepare_messages (sysContent : String) (ch : List PyVal) :
    Except String (List PyDict) :=
  match check_first_message_for_guid ch with
  | Except.error e => Except.error e
  | Except.ok g =>
    let start := match g with
      | some _ => ch.drop 1
      | Option.none => ch
    Except.ok
      (ensure_string_content (PyVal.dict (PyDict.cons "role" (PyVal.str "system")
          (PyDict.cons "content" (PyVal.str sysContent) PyDict.nil)))
        :: start.map ensure_string_content)

/-- The message sequence `get_response` hands to the completion loop (lines
481-486 and 515-516, on the path that is not short-circuited by a bare-GUID
prompt): trim the history, prepare the messages, append the new user turn. -/
def get_response_messages (sysContent prompt : String) (h : List PyVal) :
    Except String (List PyDict) :=
  match prepare_messages sysContent (trimmed_history h) with
  | Except.error e => Except.error e
  | Except.ok msgs =>
    Except.ok (msgs ++ [ensure_string_content
      (PyVal.dict (PyDict.cons "role" (PyVal.str "user")
        (PyDict.cons "content" (PyVal.str prompt) PyDict.nil)))])

/-! ## Memory recall (`agents/context_memory_agent.py`,
`ContextMemoryAgent._format_legacy_memories` lines 80-157)

A legacy memory record is a JSON mapping value containing at least a
`message` field; `theme`, `date` and `time` are read with `dict.get`
defaults, so absence and the recorded string are both representable. -/

structure MemoryRecord where
  message : String
  theme : Option String
  date : Option String
  time : Option String
deriving DecidableEq, Repr

/-- The Python sort key `lambda x: (x.get('date', ''), x.get('time', ''))`,
under the lexicographic pair order (Python tuple comparison). -/
def memKey (m : MemoryRecord) : Lex (String × String) :=
  toLex (m.date.getD "", m.time.getD "")

/-- Holds when `a` may precede `b` in the descending sort: `memKey b ≤ memKey a`. -/
def memGe (a b : MemoryRecord) : Prop :=
  memKey b ≤ memKey a

instance : DecidableRel memGe := fun a b =>
  inferInstanceAs (Decidable (memKey b ≤ memKey a))

instance : IsTotal MemoryRecord memGe :=
  ⟨fun a b => le_total (memKey b) (memKey a)⟩

instance : IsTrans MemoryRecord memGe :=
  ⟨fun _ _ _ h1 h2 => le_trans h2 h1⟩

/-- Embeds `sorted(memories, key=lambda x: (x.get('date',''), x.get('time','')),
reverse=True)`: a stable descending sort.  `List.insertionSort` inserts each
earlier element in front of later elements with an equal key, matching
the stable behaviour of the Python sort. -/
def pySortDescMem (ms : List MemoryRecord) : List MemoryRecord :=
  List.insertionSort memGe ms

/-- One bullet line (lines 94-103 / 141-151): the recorded suffix appears
only when both the date and the time are present and non-empty (`dict.get`
turns absence into the empty string, which is falsy). -/
def renderMemoryLine (m : MemoryRecord) : String :=
  let theme := m.theme.getD "Unknown"
  let date := m.date.getD ""
  let time := m.time.getD ""
  if date ≠ "" ∧ time ≠ "" then
    "• " ++ m.message ++ " (Theme: " ++ theme ++ ", Recorded: " ++ date ++ " " ++ time ++ ")"
  else
    "• " ++ m.message ++ " (Theme: " ++ theme ++ ")"

/-- Embeds `f"for user ID {guid}" if self.storage_manager.current_guid else "from
shared memory"` (Python truthiness: `None` and `""` select the shared
wording). -/
def memory_source (current_guid : Option String) : String :=
  match current_guid with
  | some g => if g ≠ "" then "for user ID " ++ g else "from shared memory"
  | Option.none => "from shared memory"

/-- Keyword filter (lines 112-120): a record matches when its lowered
message or lowered theme contains some lowered keyword. -/
def kwMatch (keywords : List String) (m : MemoryRecord) : Bool :=
  keywords.any (fun kw => strContains (pyLower m.message) (pyLower kw)) ||
    keywords.any (fun kw => strContains (pyLower (m.theme.getD "")) (pyLower kw))

/-- Rendering of the non-full-recall result list (lines 139-157). -/
def renderRecall (current_guid : Option String) (ms : List MemoryRecord) : String :=
  let lines := ms.map renderMemoryLine
  if lines.isEmpty then "No matching memories found."
  else
    "Here\x27s what I remember " ++ memory_source current_guid ++ ":\n" ++
      String.intercalate "\n" lines

/-- Embeds `_format_legacy_memories` (lines 80-157), with the manager field
`current_guid` passed explicitly.  Full recall sorts everything descending
by (date, time); otherwise a non-empty keyword list keeps every match in
document order (uncapped), falling back — and only then — to the
`max_messages` most recent records. -/
def format_legacy_memories (current_guid : Option String) (ms : List MemoryRecord)
    (max_messages : Nat) (keywords : List String) (full_recall : Bool) : String :=
  if ms.isEmpty then "No memories found in the format I understand."
  else if full_recall then
    let sorted := pySortDescMem ms
    let lines := sorted.map renderMemoryLine
    if lines.isEmpty then "No memories found."
    else
      "All memories " ++ memory_source current_guid ++ ":\n" ++
        String.intercalate "\n" lines
  else
    let selected :=
      if !keywords.isEmpty then
        let filtered := ms.filter (kwMatch keywords)
        if !filtered.isEmpty then filtered
        else (pySortDescMem ms).take max_messages
      else (pySortDescMem ms).take max_messages
    renderRecall current_guid selected

/-! ## The completion/dispatch loop (`Assistant.get_response`,
`function_app.py` lines 518-617)

The completion provider and the capability handlers are external: a
`ProviderOutcome` is what one `get_openai_api_call` invocation does (return
a message, or raise), and the behaviour of the provider over a turn is a trace
of such outcomes consumed one per call.  The `perform` of a handler either raises or
returns an optional result string (packaged with its `json.loads` outcome
for the follow-up evaluation at lines 581-594). -/

/-- Embeds `assistant_msg.function_call`: a capability name and the `arguments`
payload (`none` models `arguments is None`, in which case
`ensure_string_function_args` yields `None` and `safe_json_loads` an empty
dict). -/
structure FunctionCall where
  name : String
  args : Option JsonText

/-- One outcome of `get_openai_api_call`. -/
inductive ProviderOutcome where
  | raises (e : String)
  | msg (content : Option String) (function_call : Option FunctionCall)

/-- What `agent.perform(**params)` does: raise, or return (`none` models a
`None` result, coerced to the fixed success sentinel). -/
inductive PerformOutcome where
  | raises (e : String)
  | returns (result : Option JsonText)

structure AgentDef where
  perform : List (String × Json) → PerformOutcome

structure TurnConfig where
  user_guid : String
  agents : String → Option AgentDef
  maxRetries : Nat
  retryDelay : Nat

/-- Embeds `get_response(prompt, history)` uses the defaults `max_retries=3`,
`retry_delay=2`. -/
def mkTurnConfig (user_guid : String) (agents : String → Option AgentDef) : TurnConfig :=
  { user_guid := user_guid, agents := agents, maxRetries := 3, retryDelay := 2 }

/-- The names receiving the forced identity injection (line 555). -/
def memoryAgentNames : List String := ["ManageMemory", "ContextMemory"]

/-- Lines 543-556: parse the arguments defensively, replace `None` values by
the empty string, and force-inject the session identity token for
memory-scoped capabilities.  `.items()` on a non-dict parse result raises
`AttributeError`, the `Except.error` case (caught at line 569). -/
def buildAgentParams (user_guid : String) (agent_name : String)
    (args : Option JsonText) : Except String (List (String × Json)) :=
  match safe_json_loads args with
  | Json.obj kvs =>
    let sanitized := kvs.map (fun kv => if kv.2.isNull then (kv.1, Json.str "") else kv)
    Except.ok
      (if agent_name ∈ memoryAgentNames then
        dictSet sanitized "user_guid" (Json.str user_guid)
      else sanitized)
  | _ => Except.error "object has no attribute \x27items\x27"

/-- The follow-up evaluation (lines 581-594): parse the handler result as
JSON; a dict with a truthy `error`, a `status` equal to the string `incomplete`, or
`requires_additional_action == True` marks the turn as needing another
completion cycle; anything else (including a parse failure) does not. -/
def needsFollowUp (t : JsonText) : Bool :=
  match t.parsed with
  | Option.none => false
  | some j =>
    match j with
    | Json.obj kvs =>
      jsonTruthy ((dictGet kvs "error").getD Json.null) ||
        jsonEqStr (dictGet kvs "status") "incomplete" ||
        jsonEqTrue (dictGet kvs "requires_additional_action")
    | _ => false

/-- The result string of a handler invocation (lines 561-565): a `None`
result is coerced to the fixed success sentinel (whose `json.loads`
fails). -/
def resultTextOf : Option JsonText → JsonText
  | Option.none => { raw := "Agent completed successfully", parsed := Option.none }
  | some t => t

/-- Observable events of one turn: `time.sleep(retry_delay)` calls and
handler invocations with the exact parameters passed. -/
inductive LoopEvent where
  | sleep (secs : Nat)
  | agentCall (name : String) (params : List (String × Json))

/-- The value of `get_response` (formatted, voice, agent_logs), or
`undetermined` when the supplied provider trace is too short to decide the
turn. -/
inductive TurnResult where
  | reply (formatted voice logs : String)
  | undetermined

/-- The `while retry_count < max_retries` loop of `get_response` (lines
522-613).  One iteration consumes one provider outcome (plus one more for
the finalization call after a dispatch); an exception anywhere in the
protected block increments `retry_count` and sleeps `retry_delay` seconds
unless the ceiling is reached, in which case the generic error pair is
returned; business-logic errors from `buildAgentParams`/`perform` return a
parameter-parsing error immediately (lines 569-571).  Fuel is instantiated
with one more than the trace length, which bounds the iteration count, so
the fuel-exhausted branch only signals an undetermined trace. -/
def runLoop (cfg : TurnConfig) :
    Nat → List ProviderOutcome → Nat → List String → TurnResult × List LoopEvent
  | 0, _, _, _ => (TurnResult.undetermined, [])
  | fuel + 1, trace, retry_count, agent_logs =>
    if retry_count < cfg.maxRetries then
      match trace with
      | [] => (TurnResult.undetermined, [])
      | ProviderOutcome.raises _ :: rest =>
        if retry_count + 1 < cfg.maxRetries then
          let r := runLoop cfg fuel rest (retry_count + 1) agent_logs
          (r.1, LoopEvent.sleep cfg.retryDelay :: r.2)
        else
          (TurnResult.reply "An error occurred. Please try again."
            "Something went wrong - try again." "", [])
      | ProviderOutcome.msg content fc :: rest =>
        match fc with
        | Option.none =>
          let pr := parse_response_with_voice (content.getD "")
          (TurnResult.reply pr.1 pr.2 (String.intercalate "\n" agent_logs), [])
        | some f =>
          match cfg.agents f.name with
          | Option.none =>
            (TurnResult.reply ("Agent \x27" ++ f.name ++ "\x27 does not exist")
              "I couldn\x27t find that agent." "", [])
          | some agent =>
            match buildAgentParams cfg.user_guid f.name f.args with
            | Except.error e =>
              (TurnResult.reply ("Error parsing parameters: " ++ e)
                "I hit an error processing that." "", [])
            | Except.ok params =>
              match agent.perform params with
              | PerformOutcome.raises e =>
                (TurnResult.reply ("Error parsing parameters: " ++ e)
                  "I hit an error processing that." "", [])
              | PerformOutcome.returns val =>
                let resultText := resultTextOf val
                let logs2 := agent_logs ++
                  ["Performed " ++ f.name ++ " and got result: " ++ resultText.raw]
                let ev := LoopEvent.agentCall f.name params
                if needsFollowUp resultText then
                  let r := runLoop cfg fuel rest retry_count logs2
                  (r.1, ev :: r.2)
                else
                  match rest with
                  | [] => (TurnResult.undetermined, [ev])
                  | ProviderOutcome.raises _ :: rest2 =>
                    if retry_count + 1 < cfg.maxRetries then
                      let r := runLoop cfg fuel rest2 (retry_count + 1) logs2
                      (r.1, ev :: LoopEvent.sleep cfg.retryDelay :: r.2)
                    else
                      (TurnResult.reply "An error occurred. Please try again."
                        "Something went wrong - try again." "", [ev])
                  | ProviderOutcome.msg content2 _ :: _ =>
                    let pr := parse_response_with_voice (content2.getD "")
                    (TurnResult.reply pr.1 pr.2 (String.intercalate "\n" logs2), [ev])
    else
      (TurnResult.reply "Service temporarily unavailable. Please try again later."
        "Service is down - try again later." "", [])

/-- The completion loop as entered by `get_response` (`retry_count = 0`,
empty `agent_logs`, fuel covering the whole trace). -/
def get_response_loop (cfg : TurnConfig) (trace : List ProviderOutcome) :
    TurnResult × List LoopEvent :=
  runLoop cfg (trace.length + 1) trace 0 []

/-! ## Shared lemmas -/

theorem dictGet_dictSet (l : List (String × Json)) (k : String) (v : Json) :
    dictGet (dictSet l k v) k = some v := by
  induction l with
  | nil => simp [dictSet, dictGet, List.find?]
  | cons kv t ih =>
    by_cases hk : kv.1 == k
    · simp [dictSet, hk, dictGet, List.find?]
    · simp only [dictSet, hk, if_false, Bool.false_eq_true]
      simpa [dictGet, List.find?, hk] using ih

/-! ## Claims -/

/-- C6: The dual-channel response parser returns rich = `**bold text**` and
spoken = `Short spoken line.` on the delimited input, and on the
delimiter-free input returns the full text as the rich channel and the first
sentence (markup-stripped) as the spoken channel. -/
theorem dual_channel_parse_examples :
    parse_response_with_voice "**bold text**|||VOICE|||Short spoken line." =
      ("**bold text**", "Short spoken line.") ∧
    parse_response_with_voice "This is the answer. More detail follows." =
      ("This is the answer. More detail follows.", "This is the answer.") := by
  constructor <;> decide

/-- C3: The completion/dispatch cycle retries only exceptions raised inside
the protected block: three consecutive provider failures exhaust the default
ceiling of 3 attempts with a 2-second sleep between consecutive attempts and
yield the generic user-safe error pair without consuming any further provider
outcome; a business-logic error from a handler (here, a raising `perform`)
is terminal for the turn with no retry and no sleep.  Neither path leaves an
exception channel: the loop returns a reply in both cases. -/
theorem provider_retry_ceiling (g e1 e2 e3 em name : String)
    (agents : String → Option AgentDef) (rest rest2 : List ProviderOutcome)
    (c : Option String) (logs : List String) :
    runLoop (mkTurnConfig g agents) (rest.length + 4)
        (ProviderOutcome.raises e1 :: ProviderOutcome.raises e2 ::
          ProviderOutcome.raises e3 :: rest) 0 logs =
      (TurnResult.reply "An error occurred. Please try again."
        "Something went wrong - try again." "",
       [LoopEvent.sleep 2, LoopEvent.sleep 2]) ∧
    get_response_loop
        (mkTurnConfig g
          (fun n => if n == name then some ⟨fun _ => PerformOutcome.raises em⟩
            else Option.none))
        (ProviderOutcome.msg c (some ⟨name, Option.none⟩) :: rest2) =
      (TurnResult.reply ("Error parsing parameters: " ++ em)
        "I hit an error processing that." "", []) := by
  constructor
  · simp [runLoop, mkTurnConfig]
  · simp only [get_response_loop, runLoop, mkTurnConfig, List.length_cons]
    simp [buildAgentParams, safe_json_loads]

/-- C4: For a memory-scoped capability (ManageMemory / ContextMemory), the
`user_guid` parameter actually passed to the handler is the current session
identity token, whatever the model supplied: any two successfully parsed
argument payloads yield the same injected token. -/
theorem memory_agent_guid_forced (g name : String) (hname : name ∈ memoryAgentNames)
    (a1 a2 : Option JsonText) (p1 p2 : List (String × Json))
    (h1 : buildAgentParams g name a1 = Except.ok p1)
    (h2 : buildAgentParams g name a2 = Except.ok p2) :
    dictGet p1 "user_guid" = some (Json.str g) ∧
      dictGet p2 "user_guid" = dictGet p1 "user_guid" := by
  have key : ∀ (a : Option JsonText) (p : List (String × Json)),
      buildAgentParams g name a = Except.ok p →
      dictGet p "user_guid" = some (Json.str g) := by
    intro a p h
    unfold buildAgentParams at h
    split at h
    · simp only [if_pos hname] at h
      cases h
      exact dictGet_dictSet _ _ _
    · cases h
  exact ⟨key a1 p1 h1, by rw [key a1 p1 h1, key a2 p2 h2]⟩

theorem memory_agent_guid_forced_witness :
    dictGet [("user_guid", Json.str "G"), ("note", Json.str "")] "user_guid" =
        some (Json.str "G") ∧
      dictGet [("user_guid", Json.str "G"), ("note", Json.str "")] "user_guid" =
        dictGet [("user_guid", Json.str "G"), ("note", Json.str "")] "user_guid" :=
  memory_agent_guid_forced "G" "ContextMemory" (by simp [memoryAgentNames])
    (some ⟨"x", some (Json.obj [("user_guid", Json.str "EVIL"), ("note", Json.null)])⟩)
    (some ⟨"y", some (Json.obj [("user_guid", Json.str "OTHER"), ("note", Json.null)])⟩)
    _ _ rfl rfl

/-- A handler that accepts any parameters and returns the string `ok`
(mirroring the `perform(self, **kwargs)` signature of the bundled agents). -/
def probeAgent : AgentDef := ⟨fun _ => PerformOutcome.returns (some ⟨"ok", Option.none⟩)⟩

def probeAgents : String → Option AgentDef :=
  fun n => if n == "ContextMemory" then some probeAgent else Option.none

/-- C5 counterexample: with function-call arguments `not json` (which fail to
parse), the turn is not terminal and the named handler IS invoked — with the
structured error dict produced by `safe_json_loads` (plus the injected
identity token) as its parameters — after which the turn finalizes
normally. -/
theorem malformed_args_handler_invoked :
    get_response_loop (mkTurnConfig "G" probeAgents)
      [ProviderOutcome.msg (some "")
          (some ⟨"ContextMemory", some ⟨"not json", Option.none⟩⟩),
       ProviderOutcome.msg (some "done") Option.none] =
    (TurnResult.reply "done" "done." "Performed ContextMemory and got result: ok",
      [LoopEvent.agentCall "ContextMemory"
        [("error", Json.str "Invalid JSON: not json"), ("user_guid", Json.str "G")]]) := rfl

/-- C5 (amended): when the function-call arguments fail to parse as JSON,
`safe_json_loads` yields the structured dict `error ↦ "Invalid JSON: <raw>"`
rather than raising; parameter construction succeeds with exactly that dict
(plus the forced identity token for memory-scoped capabilities), and the
turn proceeds to invoke the named handler with those parameters.  The
parameter-parsing error return occurs only when the parsed arguments are not
a dict or the handler invocation itself raises. -/
theorem malformed_args_still_dispatch (g name raw : String) (h : raw ≠ "") :
    buildAgentParams g name (some ⟨raw, Option.none⟩) =
      Except.ok (if name ∈ memoryAgentNames then
          [("error", Json.str ("Invalid JSON: " ++ raw)), ("user_guid", Json.str g)]
        else [("error", Json.str ("Invalid JSON: " ++ raw))]) ∧
    ∀ (c : Option String) (res : Option JsonText) (rest : List ProviderOutcome)
      (ags : String → Option AgentDef),
      ags name = some ⟨fun _ => PerformOutcome.returns res⟩ →
      needsFollowUp (resultTextOf res) = false →
      ∃ params evs,
        (get_response_loop (mkTurnConfig g ags)
            (ProviderOutcome.msg c (some ⟨name, some ⟨raw, Option.none⟩⟩) :: rest)).2 =
          LoopEvent.agentCall name params :: evs ∧
        dictGet params "error" = some (Json.str ("Invalid JSON: " ++ raw)) := by
  have hbap : buildAgentParams g name (some ⟨raw, Option.none⟩) =
      Except.ok (if name ∈ memoryAgentNames then
          [("error", Json.str ("Invalid JSON: " ++ raw)), ("user_guid", Json.str g)]
        else [("error", Json.str ("Invalid JSON: " ++ raw))]) := by
    unfold buildAgentParams safe_json_loads
    simp [h, Json.isNull, dictSet]
  refine ⟨hbap, ?_⟩
  intro c res rest ags hag hres
  have hparams : dictGet (if name ∈ memoryAgentNames then
      [("error", Json.str ("Invalid JSON: " ++ raw)), ("user_guid", Json.str g)]
    else [("error", Json.str ("Invalid JSON: " ++ raw))]) "error" =
      some (Json.str ("Invalid JSON: " ++ raw)) := by
    split <;> simp [dictGet, List.find?]
  cases rest with
  | nil =>
    simp only [get_response_loop, List.length_cons, runLoop, mkTurnConfig, hag, hbap, hres]
    exact ⟨_, _, rfl, hparams⟩
  | cons ro rest2 =>
    cases ro with
    | raises e =>
      simp only [get_response_loop, List.length_cons, runLoop, mkTurnConfig, hag, hbap, hres]
      exact ⟨_, _, rfl, hparams⟩
    | msg c2 f2 =>
      simp only [get_response_loop, List.length_cons, runLoop, mkTurnConfig, hag, hbap, hres]
      exact ⟨_, _, rfl, hparams⟩

theorem malformed_args_still_dispatch_witness :
    (buildAgentParams "G" "EmailDrafter" (some ⟨"oops", Option.none⟩) =
      Except.ok (if "EmailDrafter" ∈ memoryAgentNames then
          [("error", Json.str "Invalid JSON: oops"), ("user_guid", Json.str "G")]
        else [("error", Json.str "Invalid JSON: oops")])) ∧
    (∃ params evs,
      (get_response_loop (mkTurnConfig "G"
          (fun n => if n == "EmailDrafter" then
            some ⟨fun _ => PerformOutcome.returns (some ⟨"sent", Option.none⟩)⟩
          else Option.none))
          [ProviderOutcome.msg (some "")
            (some ⟨"EmailDrafter", some ⟨"oops", Option.none⟩⟩)]).2 =
        LoopEvent.agentCall "EmailDrafter" params :: evs ∧
      dictGet params "error" = some (Json.str "Invalid JSON: oops")) :=
  ⟨(malformed_args_still_dispatch "G" "EmailDrafter" "oops" (by decide)).1,
   (malformed_args_still_dispatch "G" "EmailDrafter" "oops" (by decide)).2
     (some "") (some ⟨"sent", Option.none⟩) [] _ rfl (by decide)⟩

theorem sepCh_tokCh_disjoint (c : Char) (h : isSepCh c = true) : isTokCh c = false := by
  simp only [isSepCh, isPyWS, Bool.or_eq_true, beq_iff_eq] at h
  casesm* _ ∨ _ <;> subst_vars <;> decide

theorem takeWhile_dropWhile_of_append (p : Char → Bool) (s t : List Char)
    (hs : ∀ c ∈ s, p c = true) (ht : ∀ c l2, t = c :: l2 → p c = false) :
    (s ++ t).takeWhile p = s ∧ (s ++ t).dropWhile p = t := by
  induction s with
  | nil =>
    cases t with
    | nil => simp [List.takeWhile, List.dropWhile]
    | cons c l2 => simp [List.takeWhile, List.dropWhile, ht c l2 rfl]
  | cons a s' ih =>
    have ha : p a = true := hs a (List.mem_cons_self a s')
    have ih' := ih (fun c hc => hs c (List.mem_cons_of_mem a hc))
    simp [List.takeWhile, List.dropWhile, ha, ih'.1, ih'.2]

/-- The declarative characterization of the strings the labeled-GUID regex
accepts: a case-insensitive `guid` label, a non-empty run of separator
characters (colon, equals or whitespace), then exactly 36 hex-or-hyphen
characters ending the text. -/
def labeled_guid_shape (t : List Char) : Prop :=
  ∃ pre sep tok, t = pre ++ sep ++ tok ∧ pre.map Char.toLower = ['g', 'u', 'i', 'd'] ∧
    sep ≠ [] ∧ (∀ c ∈ sep, isSepCh c = true) ∧ tok.length = 36 ∧ ∀ c ∈ tok, isTokCh c = true

theorem labeled_guid_extract_isSome (s : String) :
    (labeled_guid_extract s).isSome = true ↔ labeled_guid_shape s.data := by
  constructor
  · intro h
    unfold labeled_guid_extract at h
    by_cases hguid : ((s.data.take 4).map Char.toLower == ['g', 'u', 'i', 'd']) = true
    · rw [if_pos hguid] at h
      by_cases hcond : ((s.data.drop 4).takeWhile isSepCh ≠ [] ∧
          ((s.data.drop 4).dropWhile isSepCh).length = 36 ∧
          ((s.data.drop 4).dropWhile isSepCh).all isTokCh)
      · refine ⟨s.data.take 4, (s.data.drop 4).takeWhile isSepCh,
          (s.data.drop 4).dropWhile isSepCh, ?_, eq_of_beq hguid, hcond.1,
          fun c hc => List.mem_takeWhile_imp hc, hcond.2.1,
          fun c hc => List.all_eq_true.mp hcond.2.2 c hc⟩
        rw [List.append_assoc, List.takeWhile_append_dropWhile, List.take_append_drop]
      · rw [if_neg hcond] at h
        simp at h
    · rw [if_neg hguid] at h
      simp at h
  · rintro ⟨pre, sep, tok, ht, hpre, hsepne, hsep, hlen, htok⟩
    have hprelen : pre.length = 4 := by
      have := congrArg List.length hpre
      simpa using this
    have hsplit : s.data = pre ++ (sep ++ tok) := by rw [ht, List.append_assoc]
    have htake : s.data.take 4 = pre := by
      rw [hsplit]; exact List.take_left' hprelen
    have hdrop : s.data.drop 4 = sep ++ tok := by
      rw [hsplit]; exact List.drop_left' hprelen
    have htokhead : ∀ c l2, tok = c :: l2 → isSepCh c = false := by
      intro c l2 hc
      have hmem : c ∈ tok := by rw [hc]; exact List.mem_cons_self c l2
      have htc := htok c hmem
      cases hsc : isSepCh c with
      | false => rfl
      | true => rw [sepCh_tokCh_disjoint c hsc] at htc; cases htc
    have hdec := takeWhile_dropWhile_of_append isSepCh sep tok hsep htokhead
    unfold labeled_guid_extract
    rw [if_pos (by rw [htake, hpre]; exact beq_self_eq_true _)]
    rw [if_pos ?side]
    · rfl
    case side =>
      refine ⟨?_, ?_, ?_⟩
      · rw [hdrop, hdec.1]; exact hsepne
      · rw [hdrop, hdec.2]; exact hlen
      · rw [hdrop, hdec.2]; exact List.all_eq_true.mpr htok

/-- C2 counterexample: `guid:` followed by 36 zeros (not a canonical UUID —
no hyphen groups) is accepted as an identity token by `extract_user_guid`,
while the whole-string grammar of the spec (UUID, or `guid:`/`guid=` wrapping a
36-character token of the UUID grammar) rejects it. -/
theorem extract_user_guid_beyond_spec_shape :
    (extract_user_guid "guid:000000000000000000000000000000000000").isSome = true ∧
    spec_is_identity_token "guid:000000000000000000000000000000000000" = false := by
  constructor <;> decide

/-- C2 (amended): `extract_user_guid` accepts S iff S, after trimming, is
exactly a canonical UUID (8-4-4-4-12 hex groups, case-insensitive), or is a
case-insensitive `guid` label followed by one or more separator characters
(colon, equals or whitespace) followed by exactly 36 characters that are
each a hex digit or a hyphen — not necessarily of the UUID grammar.  A valid
token embedded inside longer text still never matches (the decomposition is
anchored at both ends). -/
theorem extract_user_guid_shape (s : String) :
    (extract_user_guid s).isSome = true ↔
      is_guid_match (pyStrip s) = true ∨ labeled_guid_shape (pyStrip s).data := by
  unfold extract_user_guid
  by_cases hg : is_guid_match (pyStrip s) = true
  · simp [hg]
  · rw [if_neg hg]
    rw [labeled_guid_extract_isSome (pyStrip s)]
    simp [hg]

/-- A storage environment in which every primitive call fails: the identity
read/write raise, the shared read/write raise with `ResourceNotFound`, and
re-creating the share fails too. -/
def downEnv : StorageEnv :=
  ⟨OpResult.err "boom", OpResult.err "ResourceNotFound: memory.json",
   OpResult.err "storage down", OpResult.ok (), OpResult.ok (),
   OpResult.err "boom", [OpResult.err "ResourceNotFound: memory.json"]⟩

/-- A manager state with an active identity scope. -/
def guidState : StorageState :=
  ⟨some "deadbeef-aaaa-bbbb-cccc-123456789abc",
   "memory/deadbeef-aaaa-bbbb-cccc-123456789abc"⟩

/-- C1 counterexample: when the identity-scope read fails, the shared-scope
fallback fails with a `ResourceNotFound` error, and re-creating the share
fails as well, `_ensure_share_exists` re-raises and the exception escapes
`read_json`; the same simulated failure makes `write_json` raise.  So the
read/write fallback boundary is not exception-free for every simulated
storage failure. -/
theorem read_write_fallback_can_raise :
    (read_json downEnv guidState).1 = OpResult.err "storage down" ∧
    (write_json downEnv guidState).1 = CallOutcome.raised "storage down" :=
  ⟨rfl, rfl⟩

/-- A shared-write attempt outcome that ends the retry recursion: a success,
or an error not mentioning `ResourceNotFound` (which is swallowed). -/
def putTerminal : OpResult Unit → Bool
  | OpResult.ok _ => true
  | OpResult.err e => !(strContains e "ResourceNotFound")

theorem write_shared_memory_returns (env : StorageEnv)
    (hens : ensure_share_exists env = OpResult.ok ()) :
    ∀ puts : List (OpResult Unit), (∃ r ∈ puts, putTerminal r = true) →
      write_shared_memory env puts = CallOutcome.returned := by
  intro puts
  induction puts with
  | nil => rintro ⟨r, hr, _⟩; cases hr
  | cons p rest ih =>
    rintro ⟨r, hr, hterm⟩
    cases p with
    | ok _ => rfl
    | err e =>
      simp only [write_shared_memory]
      by_cases hrnf : strContains e "ResourceNotFound" = true
      · simp only [hrnf, if_true, hens]
        refine ih ⟨r, ?_, hterm⟩
        rcases List.mem_cons.mp hr with heq | hmem
        · subst heq
          rw [show putTerminal (OpResult.err e) = !(strContains e "ResourceNotFound") from rfl,
            hrnf] at hterm
          cases hterm
        · exact hmem
      · rw [if_neg hrnf]

theorem read_shared_memory_ok (env : StorageEnv)
    (hens : ensure_share_exists env = OpResult.ok ()) :
    ∃ j, read_shared_memory env = OpResult.ok j := by
  unfold read_shared_memory
  split
  · exact ⟨_, rfl⟩
  · split
    · refine ⟨Json.obj [], ?_⟩
      rw [hens]
    · exact ⟨_, rfl⟩

/-- C1 (amended): for every identity token (valid or invalid) and every
simulated storage failure, an error on the identity scope falls back to the
shared scope (resetting the manager to the shared scope), and `read_json` /
`write_json` return without raising — provided the `ResourceNotFound`
recovery path (`_ensure_share_exists`) does not itself fail, and (for
writes) the retried shared write does not keep failing with
`ResourceNotFound` forever.  Without those provisos the recovery exception
propagates, as the counterexample shows. -/
theorem read_write_fallback_no_raise (env : StorageEnv) (st : StorageState)
    (hens : ensure_share_exists env = OpResult.ok ())
    (hput : ∃ r ∈ env.putSharedFiles, putTerminal r = true) :
    (∃ j, (read_json env st).1 = OpResult.ok j) ∧
    (write_json env st).1 = CallOutcome.returned ∧
    (guidScopeActive st = true →
      (∀ e, env.getGuidFile = OpResult.err e → (read_json env st).2 = sharedFallbackState) ∧
      (∀ e, env.putGuidFile = OpResult.err e → (write_json env st).2 = sharedFallbackState)) := by
  obtain ⟨js, hjs⟩ := read_shared_memory_ok env hens
  have hw := write_shared_memory_returns env hens env.putSharedFiles hput
  refine ⟨?_, ?_, ?_⟩
  · unfold read_json
    by_cases hact : guidScopeActive st = true
    · rw [if_pos hact]
      cases hg : env.getGuidFile with
      | ok t => exact ⟨_, rfl⟩
      | err e => exact ⟨js, by simp [hjs]⟩
    · rw [if_neg hact]
      exact ⟨js, by simp [hjs]⟩
  · unfold write_json
    by_cases hact : guidScopeActive st = true
    · rw [if_pos hact]
      cases hg : env.putGuidFile with
      | ok _ => rfl
      | err e => simpa using hw
    · rw [if_neg hact]
      simpa using hw
  · intro hact
    constructor
    · intro e he
      unfold read_json
      rw [if_pos hact, he]
    · intro e he
      unfold write_json
      rw [if_pos hact, he]

/-- An environment whose only failure is on the identity scope; recovery and
shared writes succeed. -/
def fallbackEnv : StorageEnv :=
  ⟨OpResult.err "guid read boom", OpResult.ok ⟨"\x7b\x7d", some (Json.obj [])⟩,
   OpResult.ok (), OpResult.ok (), OpResult.ok (),
   OpResult.err "guid write boom", [OpResult.ok ()]⟩

theorem read_write_fallback_no_raise_witness :
    (∃ j, (read_json fallbackEnv guidState).1 = OpResult.ok j) ∧
    (write_json fallbackEnv guidState).1 = CallOutcome.returned ∧
    (guidScopeActive guidState = true →
      (∀ e, fallbackEnv.getGuidFile = OpResult.err e →
        (read_json fallbackEnv guidState).2 = sharedFallbackState) ∧
      (∀ e, fallbackEnv.putGuidFile = OpResult.err e →
        (write_json fallbackEnv guidState).2 = sharedFallbackState)) :=
  read_write_fallback_no_raise fallbackEnv guidState rfl (by decide)

theorem PyDict_get_set_same : ∀ (d : PyDict) (k : String) (v : PyVal),
    (d.set k v).get k = v
  | PyDict.nil, k, v => by simp [PyDict.set, PyDict.get]
  | PyDict.cons k0 v0 t, k, v => by
    by_cases hk : (k0 == k) = true
    · simp [PyDict.set, PyDict.get, hk]
    · simp only [PyDict.set, hk, if_false, Bool.false_eq_true]
      simpa [PyDict.get, hk] using PyDict_get_set_same t k v

theorem PyDict_get_set_ne : ∀ (d : PyDict) (k k' : String) (v : PyVal), k ≠ k' →
    (d.set k v).get k' = d.get k'
  | PyDict.nil, k, k', v, hne => by simp [PyDict.set, PyDict.get, hne]
  | PyDict.cons k0 v0 t, k, k', v, hne => by
    by_cases hk : (k0 == k) = true
    · have hk0 : k0 = k := eq_of_beq hk
      subst hk0
      simp [PyDict.set, PyDict.get, hne]
    · simp only [PyDict.set, hk, if_false, Bool.false_eq_true]
      by_cases hk' : (k0 == k') = true
      · simp [PyDict.get, hk']
      · simp [PyDict.get, hk', PyDict_get_set_ne t k k' v hne]

theorem PyDict_has_set_same : ∀ (d : PyDict) (k : String) (v : PyVal),
    (d.set k v).has k = true
  | PyDict.nil, k, v => by simp [PyDict.set, PyDict.has]
  | PyDict.cons k0 v0 t, k, v => by
    by_cases hk : (k0 == k) = true
    · simp [PyDict.set, PyDict.has, hk]
    · simp only [PyDict.set, hk, if_false, Bool.false_eq_true]
      simp [PyDict.has, PyDict_has_set_same t k v]

theorem PyDict_has_set_preserve : ∀ (d : PyDict) (k k' : String) (v : PyVal),
    d.has k' = true → (d.set k v).has k' = true
  | PyDict.nil, _, _, _, h => by cases h
  | PyDict.cons k0 v0 t, k, k', v, h => by
    simp only [PyDict.has, Bool.or_eq_true] at h
    by_cases hk : (k0 == k) = true
    · have hk0 : k0 = k := eq_of_beq hk
      subst hk0
      simp only [PyDict.set, beq_self_eq_true, if_true, PyDict.has, Bool.or_eq_true]
      rcases h with h | h
      · exact Or.inl h
      · exact Or.inr h
    · simp only [PyDict.set, hk, if_false, Bool.false_eq_true, PyDict.has, Bool.or_eq_true]
      rcases h with h | h
      · exact Or.inl h
      · exact Or.inr (PyDict_has_set_preserve t k k' v h)

theorem PyDict_has_set_ne : ∀ (d : PyDict) (k k' : String) (v : PyVal), k ≠ k' →
    (d.set k v).has k' = d.has k'
  | PyDict.nil, k, k', v, hne => by simp [PyDict.set, PyDict.has, hne]
  | PyDict.cons k0 v0 t, k, k', v, hne => by
    by_cases hk : (k0 == k) = true
    · have hk0 : k0 = k := eq_of_beq hk
      subst hk0
      simp [PyDict.set, PyDict.has, hne]
    · simp only [PyDict.set, hk, if_false, Bool.false_eq_true]
      simp [PyDict.has, PyDict_has_set_ne t k k' v hne]

/-- The message shapes whose content the spec requires to become the empty
string: a `None` message, a dict without a content key, or a dict whose
content is `None`. -/
def contentMissingOrNone (m : PyVal) : Prop :=
  m = PyVal.none ∨ ∃ kvs, m = PyVal.dict kvs ∧
    (kvs.has "content" = false ∨ kvs.get "content" = PyVal.none)

/-- The message used in the C7 counterexample: a well-formed turn whose
content is the integer 42. -/
def intContentMsg : PyVal :=
  PyVal.dict (PyDict.cons "role" (PyVal.str "user")
    (PyDict.cons "content" (PyVal.int 42) PyDict.nil))

/-- C7 counterexample: non-string content is passed through Python `str`,
not replaced by the empty string — integer content 42 becomes the string
`42`. -/
theorem ensure_string_content_str_coercion :
    (ensure_string_content intContentMsg).get "content" = PyVal.str "42" ∧
    PyVal.str "42" ≠ PyVal.str "" := by
  constructor
  · rfl
  · intro h
    injection h with h2
    exact absurd h2 (by decide)

/-- C7 (amended): every message passed through `ensure_string_content` comes
out with a role key and string-valued content; missing content and `None`
content become the empty string, while other non-string content becomes its
`str` rendering (so content is never absent, but is not always emptied). -/
theorem ensure_string_content_contract (m : PyVal) :
    (ensure_string_content m).has "role" = true ∧
    (∃ s, (ensure_string_content m).get "content" = PyVal.str s) ∧
    (contentMissingOrNone m → (ensure_string_content m).get "content" = PyVal.str "") := by
  have hrc : ("role" : String) ≠ "content" := by decide
  cases m with
  | none => exact ⟨rfl, ⟨"", rfl⟩, fun _ => rfl⟩
  | dict kvs =>
    simp only [ensure_string_content]
    by_cases hr : kvs.has "role" = true
    · simp only [hr, if_true]
      by_cases hc : kvs.has "content" = true
      · simp only [hc, if_true]
        refine ⟨PyDict_has_set_preserve _ _ _ _ hr, ⟨_, PyDict_get_set_same _ _ _⟩, ?_⟩
        rintro (h | ⟨kvs2, hk2, hmiss⟩)
        · exact absurd h (by simp)
        · injection hk2 with hk2eq
          subst hk2eq
          rcases hmiss with hmiss | hnone
          · rw [hc] at hmiss; cases hmiss
          · rw [hnone]
            exact PyDict_get_set_same _ _ _
      · rw [if_neg hc]
        exact ⟨PyDict_has_set_preserve _ _ _ _ hr, ⟨"", PyDict_get_set_same _ _ _⟩,
          fun _ => PyDict_get_set_same _ _ _⟩
    · rw [if_neg hr]
      have hc_eq : (kvs.set "role" (PyVal.str "user")).has "content" = kvs.has "content" :=
        PyDict_has_set_ne _ _ _ _ hrc
      have hg_eq : (kvs.set "role" (PyVal.str "user")).get "content" = kvs.get "content" :=
        PyDict_get_set_ne _ _ _ _ hrc
      by_cases hc : kvs.has "content" = true
      · rw [hc_eq, hc, if_pos rfl, hg_eq]
        refine ⟨PyDict_has_set_preserve _ _ _ _ (PyDict_has_set_same _ _ _),
          ⟨_, PyDict_get_set_same _ _ _⟩, ?_⟩
        rintro (h | ⟨kvs2, hk2, hmiss⟩)
        · exact absurd h (by simp)
        · injection hk2 with hk2eq
          subst hk2eq
          rcases hmiss with hmiss | hnone
          · rw [hc] at hmiss; cases hmiss
          · rw [hnone]
            exact PyDict_get_set_same _ _ _
      · rw [hc_eq, if_neg (by simpa using hc)]
        exact ⟨PyDict_has_set_preserve _ _ _ _ (PyDict_has_set_same _ _ _),
          ⟨"", PyDict_get_set_same _ _ _⟩, fun _ => PyDict_get_set_same _ _ _⟩
  | bool b =>
    refine ⟨rfl, ⟨_, rfl⟩, ?_⟩
    rintro (h | ⟨kvs2, hk2, _⟩)
    · exact absurd h (by simp)
    · exact absurd hk2 (by simp)
  | int n =>
    refine ⟨rfl, ⟨_, rfl⟩, ?_⟩
    rintro (h | ⟨kvs2, hk2, _⟩)
    · exact absurd h (by simp)
    · exact absurd hk2 (by simp)
  | str s =>
    refine ⟨rfl, ⟨_, rfl⟩, ?_⟩
    rintro (h | ⟨kvs2, hk2, _⟩)
    · exact absurd h (by simp)
    · exact absurd hk2 (by simp)
  | list es =>
    refine ⟨rfl, ⟨_, rfl⟩, ?_⟩
    rintro (h | ⟨kvs2, hk2, _⟩)
    · exact absurd h (by simp)
    · exact absurd hk2 (by simp)

/-- The message used in the C7 witness: a dict whose content key holds
`None`. -/
def noneContentMsg : PyDict := PyDict.cons "content" PyVal.none PyDict.nil

theorem ensure_string_content_contract_witness :
    (ensure_string_content (PyVal.dict noneContentMsg)).has "role" = true ∧
    (∃ s, (ensure_string_content (PyVal.dict noneContentMsg)).get "content" = PyVal.str s) ∧
    (ensure_string_content (PyVal.dict noneContentMsg)).get "content" = PyVal.str "" :=
  ⟨(ensure_string_content_contract (PyVal.dict noneContentMsg)).1,
   (ensure_string_content_contract (PyVal.dict noneContentMsg)).2.1,
   (ensure_string_content_contract (PyVal.dict noneContentMsg)).2.2
     (Or.inr ⟨noneContentMsg, rfl, Or.inr rfl⟩)⟩

/-- C8: For records with pairwise-distinct (date, time) keys, the
full-recall snapshot renders exactly the descending-sorted records as bullet
lines joined by newlines under the scope-identifying header; the sorted
sequence is a permutation of the input and is strictly descending in the
lexicographic (date, time) order. -/
theorem full_recall_descending (cg : Option String) (ms : List MemoryRecord)
    (max_messages : Nat) (keywords : List String) (hne : ms ≠ [])
    (hdist : ms.Pairwise (fun a b => memKey a ≠ memKey b)) :
    format_legacy_memories cg ms max_messages keywords true =
      "All memories " ++ memory_source cg ++ ":\n" ++
        String.intercalate "\n" ((pySortDescMem ms).map renderMemoryLine) ∧
    (pySortDescMem ms).Perm ms ∧
    (pySortDescMem ms).Pairwise (fun a b => memKey b < memKey a) := by
  have hperm : (pySortDescMem ms).Perm ms := List.perm_insertionSort memGe ms
  have hsorted : List.Sorted memGe (pySortDescMem ms) := List.sorted_insertionSort memGe ms
  have hdist' : (pySortDescMem ms).Pairwise (fun a b => memKey a ≠ memKey b) :=
    (hperm.pairwise_iff (fun h => h.symm)).mpr hdist
  have hstrict : (pySortDescMem ms).Pairwise (fun a b => memKey b < memKey a) :=
    (hsorted.and hdist').imp (fun h => lt_of_le_of_ne h.1 h.2.symm)
  have hsne : pySortDescMem ms ≠ [] := by
    intro h
    rw [h] at hperm
    exact hne hperm.symm.eq_nil
  have h1 : ms.isEmpty = false := by
    cases ms with
    | nil => exact absurd rfl hne
    | cons a t => rfl
  have h2 : ((pySortDescMem ms).map renderMemoryLine).isEmpty = false := by
    cases hs : pySortDescMem ms with
    | nil => exact absurd hs hsne
    | cons a t => rfl
  refine ⟨?_, hperm, hstrict⟩
  simp only [format_legacy_memories, h1, Bool.false_eq_true, if_false, if_true, h2]

def memA : MemoryRecord := ⟨"alpha", some "T", some "2024-01-02", some "10:00"⟩
def memB : MemoryRecord := ⟨"beta", Option.none, some "2024-01-01", some "09:00"⟩

theorem full_recall_descending_witness :
    format_legacy_memories (some "G") [memA, memB] 10 [] true =
      "All memories " ++ memory_source (some "G") ++ ":\n" ++
        String.intercalate "\n" ((pySortDescMem [memA, memB]).map renderMemoryLine) ∧
    (pySortDescMem [memA, memB]).Perm [memA, memB] ∧
    (pySortDescMem [memA, memB]).Pairwise (fun a b => memKey b < memKey a) :=
  full_recall_descending (some "G") [memA, memB] 10 [] (by decide) (by decide)

theorem trimmed_history_short (l : List PyVal) (hl : l.length ≤ 20) :
    trimmed_history l = l := by
  unfold trimmed_history
  rw [if_neg (by omega)]

/-- C9: A history longer than 20 turns is trimmed to exactly its most recent
20 turns — a suffix, so the relative order of the kept turns is preserved —
before prompt assembly; a history of at most 20 turns is used unchanged; and
the assembled message sequence is exactly that of the trimmed history (the
bare-GUID first-message exclusion then applies to the trimmed history). -/
theorem history_trimming (sys prompt : String) (h : List PyVal) :
    (20 < h.length →
      (trimmed_history h).length = 20 ∧ List.IsSuffix (trimmed_history h) h) ∧
    (h.length ≤ 20 → trimmed_history h = h) ∧
    get_response_messages sys prompt h =
      get_response_messages sys prompt (trimmed_history h) := by
  refine ⟨?_, ?_, ?_⟩
  · intro h20
    unfold trimmed_history
    rw [if_pos h20]
    constructor
    · rw [List.length_drop]; omega
    · exact List.drop_suffix _ _
  · exact trimmed_history_short h
  · have hlen : (trimmed_history h).length ≤ 20 := by
      unfold trimmed_history
      split
      · rw [List.length_drop]; omega
      · omega
    unfold get_response_messages
    rw [trimmed_history_short _ hlen]

def sampleTurn : PyVal :=
  PyVal.dict (PyDict.cons "role" (PyVal.str "user")
    (PyDict.cons "content" (PyVal.str "hello") PyDict.nil))

def sampleHistory25 : List PyVal := List.replicate 25 sampleTurn

def sampleHistory3 : List PyVal := List.replicate 3 sampleTurn

theorem history_trimming_witness :
    ((trimmed_history sampleHistory25).length = 20 ∧
      List.IsSuffix (trimmed_history sampleHistory25) sampleHistory25) ∧
    trimmed_history sampleHistory3 = sampleHistory3 :=
  ⟨(history_trimming "sys" "hi" sampleHistory25).1 (by decide),
   (history_trimming "sys" "hi" sampleHistory3).2.1 (by decide)⟩

/-- C10: In the general recall path (`full_recall` false) with a non-empty
keyword list, if at least one record matches a keyword (case-insensitively,
in content or theme) then the rendered selection is exactly the matching
records in document iteration order — every match included, no
`max_messages` cap, no re-sort — and only when zero records match does the
selection become the `max_messages` most recent records in descending
(date, time) order. -/
theorem keyword_recall_uncapped (cg : Option String) (ms : List MemoryRecord)
    (max_messages : Nat) (kws : List String) (hne : ms ≠ []) (hkw : kws ≠ []) :
    ((∃ m ∈ ms, kwMatch kws m = true) →
      format_legacy_memories cg ms max_messages kws false =
        renderRecall cg (ms.filter (kwMatch kws)) ∧
      ∀ m ∈ ms, kwMatch kws m = true → m ∈ ms.filter (kwMatch kws)) ∧
    ((∀ m ∈ ms, kwMatch kws m = false) →
      format_legacy_memories cg ms max_messages kws false =
        renderRecall cg ((pySortDescMem ms).take max_messages)) := by
  have h1 : ms.isEmpty = false := by
    cases ms with
    | nil => exact absurd rfl hne
    | cons a t => rfl
  have h2 : kws.isEmpty = false := by
    cases kws with
    | nil => exact absurd rfl hkw
    | cons a t => rfl
  constructor
  · rintro ⟨m0, hm0, hmatch⟩
    have hfil : ms.filter (kwMatch kws) ≠ [] := by
      intro hf
      exact List.filter_eq_nil_iff.mp hf m0 hm0 hmatch
    have h3 : (ms.filter (kwMatch kws)).isEmpty = false := by
      cases hf : ms.filter (kwMatch kws) with
      | nil => exact absurd hf hfil
      | cons a t => rfl
    constructor
    · simp only [format_legacy_memories, h1, h2, h3, Bool.false_eq_true, if_false,
        Bool.not_false, if_true]
    · intro m hm hmm
      exact List.mem_filter.mpr ⟨hm, hmm⟩
  · intro hall
    have hfil : ms.filter (kwMatch kws) = [] :=
      List.filter_eq_nil_iff.mpr (fun a ha => by simp [hall a ha])
    simp only [format_legacy_memories, h1, h2, hfil, List.isEmpty_nil, Bool.false_eq_true,
      if_false, Bool.not_false, if_true, Bool.not_true, List.isEmpty_eq_true]

def memP : MemoryRecord := ⟨"project alpha", some "Work", some "2024-01-02", some "10:00"⟩

def memQ : MemoryRecord := ⟨"grocery list", some "Home", some "2024-01-03", some "11:00"⟩

theorem keyword_recall_uncapped_witness :
    format_legacy_memories (some "G") [memP, memQ] 1 ["alpha"] false =
      renderRecall (some "G") ([memP, memQ].filter (kwMatch ["alpha"])) ∧
    ∀ m ∈ [memP, memQ], kwMatch ["alpha"] m = true →
      m ∈ [memP, memQ].filter (kwMatch ["alpha"]) :=
  (keyword_recall_uncapped (some "G") [memP, memQ] 1 ["alpha"]
      (by decide) (by decide)).1 ⟨memP, by decide, by decide⟩
